import Mathlib

/-!
# script.js: particle background, pointer rotation and page-chrome handlers

A shallow embedding of `src/script.js`.

* JavaScript numbers are embedded as exact rationals `ℚ`; the decimal
  literals of the source (`0.1`, `0.15`, `0.01`, `0.5`) keep their decimal
  value.  Division is only compared with the source where the divisor is
  non-zero.
* The module variables (`mouseX`, `mouseY`, `windowHalfX`, `windowHalfY`,
  `time`, `particles`, the camera/renderer/composer handles) and the parts of
  the DOM the handlers touch are the fields of one record `Page`; every
  function of the source is a function `Page → Page`.
* A store into a `Float32Array` narrows the number to binary32 (`fround`,
  round to nearest, ties to even, subnormals included) before it is kept.
* What the environment supplies is an explicit argument: the draws of
  `Math.random()` are a stream `rnd : ℕ → ℚ` (the `k`-th call returns
  `rnd k`), `clock.getDelta()` is the argument `delta` of `animate`.
* Calls whose effect lives in the browser or in three.js are recorded:
  `Page.trace` lists the calls in program order, and every `Float32Array`
  carries the list of the indices stored to, extended by the store itself.
-/

namespace Portfolio

/-! ## three.js values -/

/-- THREE.Color: the three channels of a colour. -/
structure Color where
  r : ℚ
  g : ℚ
  b : ℚ
deriving DecidableEq

/-- Colour from a hex triplet, as `new THREE.Color(hex)` (three.js r128 `setHex`):
each channel is its byte divided by 255. -/
def Color.ofHex (hex : ℕ) : Color :=
  { r := ((hex / 65536 % 256 : ℕ) : ℚ) / 255
    g := ((hex / 256 % 256 : ℕ) : ℚ) / 255
    b := ((hex % 256 : ℕ) : ℚ) / 255 }

/-- Linear blend `this.c += (color.c - this.c) * alpha` on each channel
(three.js `Color.lerp`). -/
def Color.lerp (c color : Color) (alpha : ℚ) : Color :=
  { r := c.r + (color.r - c.r) * alpha
    g := c.g + (color.g - c.g) * alpha
    b := c.b + (color.b - c.b) * alpha }

/-- Endpoint colour `color1` of `createParticles` (line 79). -/
def color1 : Color := Color.ofHex 0x00f0ff

/-- Endpoint colour `color2` of `createParticles` (line 80). -/
def color2 : Color := Color.ofHex 0xff00f0

/-- Constant `particleCount` of `createParticles` (line 72). -/
def particleCount : ℕ := 2000

/-! ## Typed arrays -/

/-- Nearest integer to `y`, a tie going to the even neighbour. -/
def roundHalfEven (y : ℚ) : ℤ :=
  if y - ⌊y⌋ < 1 / 2 then ⌊y⌋
  else if 1 / 2 < y - ⌊y⌋ then ⌊y⌋ + 1
  else if ⌊y⌋ % 2 = 0 then ⌊y⌋ else ⌊y⌋ + 1

/-- Exponent of the spacing of the binary floating-point numbers of precision
`p` and least normal exponent `emin` around `x > 0`: `e - (p - 1)` for
`2 ^ e ≤ x < 2 ^ (e + 1)`, with `e` held at `emin` in the subnormal range. -/
def quantum (p : ℕ) (emin : ℤ) (x : ℚ) : ℤ :=
  max (Int.log 2 x) emin - ((p : ℤ) - 1)

/-- Nearest binary floating-point number of precision `p` and least normal
exponent `emin` to `x ≥ 0`, ties to even. -/
def roundBinary (p : ℕ) (emin : ℤ) (x : ℚ) : ℚ :=
  roundHalfEven (x / 2 ^ quantum p emin x) * 2 ^ quantum p emin x

/-- Narrowing of a number to binary32 (24 significant bits, least normal
exponent -126), as done by a store into a `Float32Array` (and by
`Math.fround`).  Sign and magnitude are rounded separately.  Magnitudes from
`2 ^ 128 * (1 - 2 ^ (-25))` on, which the source would keep as an infinity, are
outside this definition; no store of `createParticles` reaches them for draws
in [0, 1). -/
def fround (x : ℚ) : ℚ :=
  if x < 0 then -roundBinary 24 (-126) (-x) else roundBinary 24 (-126) x

/-- Float32Array: its elements, and the indices stored to so far (in order). -/
structure Float32Array where
  data : List ℚ
  writes : List ℕ

/-- Expression `new Float32Array(len)`: `len` zeros, nothing stored yet. -/
def Float32Array.alloc (len : ℕ) : Float32Array :=
  { data := List.replicate len 0, writes := [] }

/-- Assignment `a[i] = v`: the element at `i` becomes `fround v` (a store outside
the bounds leaves the elements as they are, as `List.set` does), and `i` is
recorded as stored to. -/
def Float32Array.store (a : Float32Array) (i : ℕ) (v : ℚ) : Float32Array :=
  { data := a.data.set i (fround v), writes := a.writes ++ [i] }

/-! ## The fill loop of `createParticles` -/

/-- Loop state of `createParticles`: the three typed arrays and the number of
`Math.random()` calls made so far. -/
structure FillState where
  positions : Float32Array
  colors : Float32Array
  sizes : Float32Array
  draws : ℕ

/-- The arrays as allocated on lines 75-77. -/
def allocBuffers (n : ℕ) : FillState :=
  { positions := Float32Array.alloc (n * 3)
    colors := Float32Array.alloc (n * 3)
    sizes := Float32Array.alloc n
    draws := 0 }

/-- One iteration of the loop on lines 82-96: three position stores, the blend
of the endpoint colours and its three stores, the size store; five draws of
`Math.random()` in source order. -/
def fillStep (rnd : ℕ → ℚ) (b : FillState) (i : ℕ) : FillState :=
  let positions := b.positions.store (i * 3) ((rnd b.draws - 0.5) * 200)
  let positions := positions.store (i * 3 + 1) ((rnd (b.draws + 1) - 0.5) * 200)
  let positions := positions.store (i * 3 + 2) ((rnd (b.draws + 2) - 0.5) * 200)
  let mixedColor := color1.lerp color2 (rnd (b.draws + 3))
  let colors := b.colors.store (i * 3) mixedColor.r
  let colors := colors.store (i * 3 + 1) mixedColor.g
  let colors := colors.store (i * 3 + 2) mixedColor.b
  let sizes := b.sizes.store i (rnd (b.draws + 4) * 2 + 1)
  { positions := positions
    colors := colors
    sizes := sizes
    draws := b.draws + 5 }

/-- The loop `for (let i = 0; i < n; i++)` run on freshly allocated arrays. -/
def fillBuffers (rnd : ℕ → ℚ) (n : ℕ) : FillState :=
  (List.range n).foldl (fillStep rnd) (allocBuffers n)

/-! ## Page state -/

/-- THREE.Points object held in `particles`: its geometry attributes and the
two rotation angles the frame driver writes. -/
structure Points where
  positions : List ℚ
  colors : List ℚ
  sizes : List ℚ
  rotationX : ℚ
  rotationY : ℚ

/-- Inline style properties written by the reveal callback. -/
structure Style where
  transform : String
  opacity : String
deriving DecidableEq

/-- Calls recorded in `Page.trace`. -/
inductive Call where
  | initThreeJS
  | createParticles
  | addResizeListener
  | addMousemoveListener
  | animate
  | initScrollAnimations
  | initHeaderScroll
  | injectScript
deriving DecidableEq

/-- The values the handlers read from `window`. -/
structure Window where
  innerWidth : ℚ
  innerHeight : ℚ
  scrollY : ℚ

/-- Module variables of script.js together with the DOM state it touches. -/
structure Page where
  window : Window
  mouseX : ℚ
  mouseY : ℚ
  windowHalfX : ℚ
  windowHalfY : ℚ
  time : ℚ
  particles : Option Points
  cameraAspect : ℚ
  rendererSize : ℚ × ℚ
  composerSize : ℚ × ℚ
  canvases : ℕ
  renders : ℕ
  headerClasses : List String
  styles : ℕ → Style
  domReadyListener : Bool
  scriptInjected : Bool
  trace : List Call

/-- Module variables as initialised on lines 8-16, over a document whose header
has the classes `classes` and whose elements have the inline styles `styles`. -/
def Page.initial (w : Window) (classes : List String) (styles : ℕ → Style) : Page :=
  { window := w
    mouseX := 0
    mouseY := 0
    windowHalfX := w.innerWidth / 2
    windowHalfY := w.innerHeight / 2
    time := 0
    particles := none
    cameraAspect := 0
    rendererSize := (0, 0)
    composerSize := (0, 0)
    canvases := 0
    renders := 0
    headerClasses := classes
    styles := styles
    domReadyListener := false
    scriptInjected := false
    trace := [] }

/-- Rotation angle `particles.rotation.x` (0 while `particles` is unset). -/
def Page.rotationX (s : Page) : ℚ :=
  match s.particles with
  | some p => p.rotationX
  | none => 0

/-- Rotation angle `particles.rotation.y` (0 while `particles` is unset). -/
def Page.rotationY (s : Page) : ℚ :=
  match s.particles with
  | some p => p.rotationY
  | none => 0

/-! ## Scene functions -/

/-- Function `createParticles` (lines 71-113): allocate and fill the three
attribute arrays, build the points object (rotation zero) and store it in
`particles`. -/
def createParticles (rnd : ℕ → ℚ) (s : Page) : Page :=
  let b := fillBuffers rnd particleCount
  { s with
    particles := some
      { positions := b.positions.data, colors := b.colors.data, sizes := b.sizes.data
        rotationX := 0, rotationY := 0 }
    trace := s.trace ++ [Call.createParticles] }

/-- Function `animate` (lines 116-134), with `delta` the value returned by
`clock.getDelta()`: schedule the next frame, advance `time`, set both angles
from `time`, blend them towards the pointer offset, render. -/
def animate (delta : ℚ) (s : Page) : Page :=
  let time := s.time + delta
  let particles := s.particles.map fun p =>
    let p1 := { p with rotationX := time * 0.1 }
    let p2 := { p1 with rotationY := time * 0.15 }
    let p3 := { p2 with rotationX := p2.rotationX + (s.mouseY - p2.rotationX) * 0.01 }
    { p3 with rotationY := p3.rotationY + (s.mouseX - p3.rotationY) * 0.01 }
  { s with
    time := time
    particles := particles
    renders := s.renders + 1
    trace := s.trace ++ [Call.animate] }

/-- Function `onWindowResize` (lines 137-146). -/
def onWindowResize (s : Page) : Page :=
  { s with
    windowHalfX := s.window.innerWidth / 2
    windowHalfY := s.window.innerHeight / 2
    cameraAspect := s.window.innerWidth / s.window.innerHeight
    rendererSize := (s.window.innerWidth, s.window.innerHeight)
    composerSize := (s.window.innerWidth, s.window.innerHeight) }

/-- A `resize` event: the viewport becomes `w` by `h`, then the listener runs. -/
def resizeTo (w h : ℚ) (s : Page) : Page :=
  onWindowResize { s with window := { s.window with innerWidth := w, innerHeight := h } }

/-- The fields of a `mousemove` event the handler reads. -/
structure MouseEvent where
  clientX : ℚ
  clientY : ℚ

/-- Function `onDocumentMouseMove` (lines 149-152). -/
def onDocumentMouseMove (event : MouseEvent) (s : Page) : Page :=
  { s with
    mouseX := (event.clientX - s.windowHalfX) / 100
    mouseY := (event.clientY - s.windowHalfY) / 100 }

/-- The values `initThreeJS` takes from the environment: the random draws of
`createParticles` and the first clock delta. -/
structure InitInput where
  rnd : ℕ → ℚ
  delta : ℚ

/-- Function `initThreeJS` (lines 19-68): camera and renderer sized to the
viewport, canvas appended to the container, composer built on the renderer,
then `createParticles`, the two listener registrations and `animate`. -/
def initThreeJS (inp : InitInput) (s : Page) : Page :=
  let s1 : Page :=
    { s with
      cameraAspect := s.window.innerWidth / s.window.innerHeight
      rendererSize := (s.window.innerWidth, s.window.innerHeight)
      canvases := s.canvases + 1
      composerSize := (s.window.innerWidth, s.window.innerHeight)
      trace := s.trace ++ [Call.initThreeJS] }
  let s2 := createParticles inp.rnd s1
  let s3 : Page :=
    { s2 with trace := s2.trace ++ [Call.addResizeListener, Call.addMousemoveListener] }
  animate inp.delta s3

/-! ## Page-chrome handlers -/

/-- Method `classList.add`: append the token unless it is present. -/
def classListAdd (c : String) (cl : List String) : List String :=
  if c ∈ cl then cl else cl ++ [c]

/-- Method `classList.remove`: drop every occurrence of the token. -/
def classListRemove (c : String) (cl : List String) : List String :=
  cl.filter fun x => x ≠ c

/-- The scroll listener registered by `initHeaderScroll` (lines 174-180). -/
def onScroll (s : Page) : Page :=
  if s.window.scrollY > 50 then
    { s with headerClasses := classListAdd "scrolled" s.headerClasses }
  else
    { s with headerClasses := classListRemove "scrolled" s.headerClasses }

/-- A `scroll` event: the offset becomes `y`, then the listener runs. -/
def scrollTo (s : Page) (y : ℚ) : Page :=
  onScroll { s with window := { s.window with scrollY := y } }

/-- An IntersectionObserverEntry: the observed element and whether it
intersects. -/
structure Entry where
  target : ℕ
  isIntersecting : Bool

/-- Body of `entries.forEach` in the observer callback (lines 159-164). -/
def revealEntry (s : Page) (entry : Entry) : Page :=
  if entry.isIntersecting then
    let el := entry.target
    let st1 : Style := { (s.styles el) with transform := "translateY(0)" }
    let s1 : Page := { s with styles := Function.update s.styles el st1 }
    let st2 : Style := { (s1.styles el) with opacity := "1" }
    { s1 with styles := Function.update s1.styles el st2 }
  else s

/-- The observer callback of `initScrollAnimations` (lines 158-165). -/
def onIntersect (s : Page) (entries : List Entry) : Page :=
  entries.foldl revealEntry s

/-! ## Page load -/

/-- The `DOMContentLoaded` listener (lines 184-193). -/
def onDOMContentLoaded (inp : InitInput) (s : Page) : Page :=
  let s1 := initThreeJS inp s
  { s1 with trace := s1.trace ++ [Call.initScrollAnimations, Call.initHeaderScroll] }

/-- Top-level statements of the module (lines 184-203): register the
`DOMContentLoaded` listener, then either inject the library script with
`onload = initThreeJS` or call `initThreeJS` at once. -/
def evalModule (threeDefined : Bool) (inp : InitInput) (s : Page) : Page :=
  let s1 := { s with domReadyListener := true }
  if threeDefined then initThreeJS inp s1
  else { s1 with scriptInjected := true, trace := s1.trace ++ [Call.injectScript] }

/-- The events of a page load after module evaluation. -/
inductive LoadEvent where
  | domContentLoaded
  | scriptLoad

/-- Dispatch of a load event to the listener registered for it, if any. -/
def dispatchLoad (inp : InitInput) (s : Page) : LoadEvent → Page
  | .domContentLoaded => if s.domReadyListener then onDOMContentLoaded inp s else s
  | .scriptLoad => if s.scriptInjected then initThreeJS inp s else s

/-- A page load: module evaluation, then `DOMContentLoaded`, and the load
event of the injected script (before or after `DOMContentLoaded`) when the
library was absent. -/
def pageLoad (threeDefined scriptFirst : Bool) (inp1 inp2 : InitInput) (s : Page) : Page :=
  let s1 := evalModule threeDefined inp1 s
  if threeDefined then dispatchLoad inp2 s1 .domContentLoaded
  else if scriptFirst then
    dispatchLoad inp2 (dispatchLoad inp1 s1 .scriptLoad) .domContentLoaded
  else
    dispatchLoad inp1 (dispatchLoad inp2 s1 .domContentLoaded) .scriptLoad

/-- Number of times `c` was called. -/
def Page.calls (s : Page) (c : Call) : ℕ := s.trace.count c

/-- State after `n` frame ticks with the same clock delta `dt`. -/
def ticks (dt : ℚ) : ℕ → Page → Page
  | 0, s => s
  | n + 1, s => animate dt (ticks dt n s)

/-! ## Event sequences -/

/-- State after the `mousemove` events `es`, in order. -/
def mouseMoves (s : Page) (es : List MouseEvent) : Page :=
  es.foldl (fun st ev => onDocumentMouseMove ev st) s

/-- State after the `scroll` events with offsets `ys`, in order. -/
def scrolls (s : Page) (ys : List ℚ) : Page :=
  ys.foldl scrollTo s

/-- State after frame ticks with the clock deltas `deltas`, in order. -/
def frames (s : Page) (deltas : List ℚ) : Page :=
  deltas.foldl (fun st d => animate d st) s

/-- State after the observer callbacks `batches`, in order. -/
def intersections (s : Page) (batches : List (List Entry)) : Page :=
  batches.foldl onIntersect s

/-- The style the reveal leaves on an element of style `st`. -/
def revealed (st : Style) : Prop :=
  st.transform = "translateY(0)" ∧ st.opacity = "1"

/-- A page on an 800 by 600 viewport, before any script ran. -/
def samplePage : Page :=
  Page.initial { innerWidth := 800, innerHeight := 600, scrollY := 0 } []
    (fun _ => { transform := "translateY(20px)", opacity := "0" })

/-- The sample page with the scene built (random draws all 1/2, first clock
delta 0) and the pointer moved to (400, 312). -/
def sampleScene : Page :=
  onDocumentMouseMove { clientX := 400, clientY := 312 }
    (initThreeJS { rnd := fun _ => 1 / 2, delta := 0 } samplePage)

/-- State of the fill loop on `n` particles after its first `k` iterations. -/
def fillPrefix (rnd : ℕ → ℚ) (n k : ℕ) : FillState :=
  (List.range k).foldl (fillStep rnd) (allocBuffers n)

/-! ## Theorems -/

section Lemmas

@[simp] theorem animate_time (d : ℚ) (s : Page) : (animate d s).time = s.time + d := rfl

@[simp] theorem animate_mouseX (d : ℚ) (s : Page) : (animate d s).mouseX = s.mouseX := rfl

@[simp] theorem animate_mouseY (d : ℚ) (s : Page) : (animate d s).mouseY = s.mouseY := rfl

theorem frames_append (s : Page) (xs ys : List ℚ) :
    frames s (xs ++ ys) = frames (frames s xs) ys := by
  simp [frames, List.foldl_append]

theorem frames_time (deltas : List ℚ) :
    ∀ s : Page, (frames s deltas).time = s.time + deltas.sum := by
  induction deltas with
  | nil => intro s; simp [frames]
  | cons d ds ih =>
    intro s
    have h := ih (animate d s)
    simp only [frames, List.foldl_cons] at h ⊢
    rw [h, animate_time, List.sum_cons]; ring

theorem onIntersect_time (entries : List Entry) :
    ∀ s : Page, (onIntersect s entries).time = s.time := by
  induction entries with
  | nil => intro s; rfl
  | cons e es ih =>
    intro s
    have h := ih (revealEntry s e)
    simp only [onIntersect, List.foldl_cons] at h ⊢
    rw [h]; unfold revealEntry; split <;> rfl

theorem scrolls_snoc (s : Page) (ys : List ℚ) (y : ℚ) :
    scrolls s (ys ++ [y]) = scrollTo (scrolls s ys) y := by
  simp [scrolls, List.foldl_append]

theorem scrollTo_mem_iff (t : Page) (y : ℚ) :
    "scrolled" ∈ (scrollTo t y).headerClasses ↔ 50 < y := by
  unfold scrollTo onScroll
  by_cases h : 50 < y
  · simp only [gt_iff_lt, h, if_true, iff_true]
    unfold classListAdd
    split
    · assumption
    · simp
  · simp only [gt_iff_lt, h, if_false, iff_false]
    simp [classListRemove]

theorem scrollTo_same_side (t : Page) (z : ℚ)
    (h : "scrolled" ∈ t.headerClasses ↔ 50 < z) :
    (scrollTo t z).headerClasses = t.headerClasses := by
  unfold scrollTo onScroll
  by_cases hz : 50 < z
  · simp only [gt_iff_lt, hz, if_true]
    simp [classListAdd, h.mpr hz]
  · simp only [gt_iff_lt, hz, if_false]
    have hn : "scrolled" ∉ t.headerClasses := fun hm => hz (h.mp hm)
    simp only [classListRemove]
    rw [List.filter_eq_self]
    intro a ha
    have : a ≠ "scrolled" := fun hh => hn (hh ▸ ha)
    simpa using this

theorem scrolls_same_side (zs : List ℚ) (y : ℚ) :
    ∀ t : Page, ("scrolled" ∈ t.headerClasses ↔ 50 < y) → (∀ z ∈ zs, (50 < z ↔ 50 < y)) →
      (scrolls t zs).headerClasses = t.headerClasses := by
  induction zs with
  | nil => intro t _ _; rfl
  | cons z zs ih =>
    intro t ht hz
    have hz1 : 50 < z ↔ 50 < y := hz z (List.mem_cons_self z zs)
    have hstep := scrollTo_same_side t z (ht.trans hz1.symm)
    have hrest := ih (scrollTo t z) (by rw [hstep]; exact ht)
      (fun w hw => hz w (List.mem_cons_of_mem z hw))
    simp only [scrolls, List.foldl_cons] at hrest ⊢
    rw [hrest, hstep]

theorem revealEntry_target (t : Page) (e : Entry) (he : e.isIntersecting = true) :
    revealed ((revealEntry t e).styles e.target) := by
  simp [revealEntry, he, revealed]

theorem revealEntry_keeps (t : Page) (e : Entry) (el : ℕ) (h : revealed (t.styles el)) :
    revealed ((revealEntry t e).styles el) := by
  unfold revealEntry
  split
  · by_cases hel : el = e.target
    · subst hel; simp [revealed]
    · simpa [Function.update_noteq hel] using h
  · exact h

theorem onIntersect_keeps (entries : List Entry) (el : ℕ) :
    ∀ t : Page, revealed (t.styles el) → revealed ((onIntersect t entries).styles el) := by
  induction entries with
  | nil => intro t h; exact h
  | cons e es ih =>
    intro t h
    have := ih (revealEntry t e) (revealEntry_keeps t e el h)
    simpa only [onIntersect, List.foldl_cons] using this

theorem intersections_keep (batches : List (List Entry)) (el : ℕ) :
    ∀ t : Page, revealed (t.styles el) → revealed ((intersections t batches).styles el) := by
  induction batches with
  | nil => intro t h; exact h
  | cons b bs ih =>
    intro t h
    have := ih (onIntersect t b) (onIntersect_keeps b el t h)
    simpa only [intersections, List.foldl_cons] using this

theorem animate_isSome (d : ℚ) (s : Page) :
    (animate d s).particles.isSome = s.particles.isSome := by
  simp [animate]

theorem animate_rotationX (d : ℚ) (s : Page) (h : s.particles.isSome = true) :
    (animate d s).rotationX = 0.99 * (0.1 * (s.time + d)) + 0.01 * s.mouseY := by
  obtain ⟨p, hp⟩ := Option.isSome_iff_exists.mp h
  simp only [animate, Page.rotationX, hp, Option.map_some']; ring

theorem animate_rotationY (d : ℚ) (s : Page) (h : s.particles.isSome = true) :
    (animate d s).rotationY = 0.99 * (0.15 * (s.time + d)) + 0.01 * s.mouseX := by
  obtain ⟨p, hp⟩ := Option.isSome_iff_exists.mp h
  simp only [animate, Page.rotationY, hp, Option.map_some']; ring

theorem ticks_fields (dt : ℚ) (s : Page) (n : ℕ) :
    (ticks dt n s).time = s.time + n * dt ∧ (ticks dt n s).mouseX = s.mouseX ∧
    (ticks dt n s).mouseY = s.mouseY ∧
    (ticks dt n s).particles.isSome = s.particles.isSome := by
  induction n with
  | zero => simp [ticks]
  | succ k ih =>
    obtain ⟨h1, h2, h3, h4⟩ := ih
    refine ⟨?_, ?_, ?_, ?_⟩
    · simp only [ticks, animate_time, h1]; push_cast; ring
    · simp only [ticks, animate_mouseX, h2]
    · simp only [ticks, animate_mouseY, h3]
    · simp only [ticks, animate_isSome, h4]

theorem ticks_rotationX (dt : ℚ) (s : Page) (h : s.particles.isSome = true) (n : ℕ) :
    (ticks dt (n + 1) s).rotationX = 0.99 * (0.1 * (s.time + (n + 1) * dt)) + 0.01 * s.mouseY := by
  obtain ⟨h1, _, h3, h4⟩ := ticks_fields dt s n
  show (animate dt (ticks dt n s)).rotationX = _
  rw [animate_rotationX dt _ (h4.trans h), h1, h3]; ring

theorem ticks_rotationY (dt : ℚ) (s : Page) (h : s.particles.isSome = true) (n : ℕ) :
    (ticks dt (n + 1) s).rotationY = 0.99 * (0.15 * (s.time + (n + 1) * dt)) + 0.01 * s.mouseX := by
  obtain ⟨h1, h2, _, h4⟩ := ticks_fields dt s n
  show (animate dt (ticks dt n s)).rotationY = _
  rw [animate_rotationY dt _ (h4.trans h), h1, h2]; ring

theorem sampleScene_fields :
    sampleScene.particles.isSome = true ∧ sampleScene.time = 0 ∧
    sampleScene.mouseX = 0 ∧ sampleScene.mouseY = 3 / 25 := by
  refine ⟨rfl, ?_, ?_, ?_⟩ <;>
    norm_num [sampleScene, onDocumentMouseMove, initThreeJS, animate, createParticles,
      samplePage, Page.initial]

/-- Blend of a drift angle `a * t` towards `m`: distance to `m` along a
non-decreasing `t`. -/
theorem blend_distance (a m t1 t2 : ℚ) (ha : 0 ≤ a) (ht : t1 ≤ t2) :
    (a * t2 ≤ m →
      |0.99 * (a * t2) + 0.01 * m - m| ≤ |0.99 * (a * t1) + 0.01 * m - m| ∧
      0.99 * (a * t2) + 0.01 * m ≤ m) ∧
    (m ≤ a * t1 →
      |0.99 * (a * t1) + 0.01 * m - m| ≤ |0.99 * (a * t2) + 0.01 * m - m|) := by
  have hmono : a * t1 ≤ a * t2 := mul_le_mul_of_nonneg_left ht ha
  constructor
  · intro h
    have e1 : 0.99 * (a * t1) + 0.01 * m - m ≤ 0 := by norm_num; linarith
    have e2 : 0.99 * (a * t2) + 0.01 * m - m ≤ 0 := by norm_num; linarith
    rw [abs_of_nonpos e1, abs_of_nonpos e2]
    constructor
    · norm_num; linarith
    · norm_num; linarith
  · intro h
    have e1 : 0 ≤ 0.99 * (a * t1) + 0.01 * m - m := by norm_num; linarith
    have e2 : 0 ≤ 0.99 * (a * t2) + 0.01 * m - m := by norm_num; linarith
    rw [abs_of_nonneg e1, abs_of_nonneg e2]
    norm_num; linarith

theorem fillPrefix_succ (rnd : ℕ → ℚ) (n k : ℕ) :
    fillPrefix rnd n (k + 1) = fillStep rnd (fillPrefix rnd n k) k := by
  simp [fillPrefix, List.range_succ, List.foldl_append]

theorem range_three_succ (k : ℕ) :
    List.range ((k + 1) * 3) = List.range (k * 3) ++ [k * 3, k * 3 + 1, k * 3 + 2] := by
  have : (k + 1) * 3 = k * 3 + 1 + 1 + 1 := by ring
  rw [this, List.range_succ, List.range_succ, List.range_succ]
  simp

theorem floor_le_roundHalfEven (y : ℚ) : ⌊y⌋ ≤ roundHalfEven y := by
  unfold roundHalfEven
  split_ifs <;> omega

theorem roundHalfEven_le_floor_succ (y : ℚ) : roundHalfEven y ≤ ⌊y⌋ + 1 := by
  unfold roundHalfEven
  split_ifs <;> omega

theorem roundHalfEven_intCast (n : ℤ) : roundHalfEven (n : ℚ) = n := by
  unfold roundHalfEven
  simp

theorem roundHalfEven_mono {x y : ℚ} (h : x ≤ y) : roundHalfEven x ≤ roundHalfEven y := by
  have hf : ⌊x⌋ ≤ ⌊y⌋ := Int.floor_mono h
  rcases lt_or_eq_of_le hf with hlt | heq
  · calc roundHalfEven x ≤ ⌊x⌋ + 1 := roundHalfEven_le_floor_succ x
      _ ≤ ⌊y⌋ := hlt
      _ ≤ roundHalfEven y := floor_le_roundHalfEven y
  · unfold roundHalfEven
    rw [heq]
    have hxy : x - (⌊y⌋ : ℚ) ≤ y - ⌊y⌋ := by linarith
    split_ifs <;> first | omega | (exfalso; linarith)

theorem roundAt_mono (q : ℤ) {x y : ℚ} (h : x ≤ y) :
    (roundHalfEven (x / 2 ^ q) : ℚ) * 2 ^ q ≤ roundHalfEven (y / 2 ^ q) * 2 ^ q := by
  have hq : (0 : ℚ) < 2 ^ q := zpow_pos (by norm_num) q
  have hdiv : x / 2 ^ q ≤ y / 2 ^ q := div_le_div_of_nonneg_right h (le_of_lt hq)
  have := roundHalfEven_mono hdiv
  exact mul_le_mul_of_nonneg_right (by exact_mod_cast this) (le_of_lt hq)

theorem roundAt_zpow (q k : ℤ) (h : q ≤ k) :
    (roundHalfEven ((2 : ℚ) ^ k / 2 ^ q) : ℚ) * 2 ^ q = 2 ^ k := by
  have h2 : (2 : ℚ) ≠ 0 := by norm_num
  obtain ⟨n, hn⟩ := Int.eq_ofNat_of_zero_le (sub_nonneg.mpr h)
  have e : (2 : ℚ) ^ k / 2 ^ q = (((2 : ℤ) ^ n : ℤ) : ℚ) := by
    rw [← zpow_sub₀ h2, hn]; push_cast; simp
  rw [e, roundHalfEven_intCast]
  push_cast
  rw [← zpow_natCast, ← hn, ← zpow_add₀ h2]
  congr 1; ring

theorem roundBinary_zero (p : ℕ) (emin : ℤ) : roundBinary p emin 0 = 0 := by
  simp [roundBinary, roundHalfEven]

theorem roundBinary_nonneg (p : ℕ) (emin : ℤ) {x : ℚ} (hx : 0 ≤ x) :
    0 ≤ roundBinary p emin x := by
  unfold roundBinary
  have hq : (0 : ℚ) < 2 ^ quantum p emin x := zpow_pos (by norm_num) _
  have h0 : (0 : ℤ) ≤ ⌊x / 2 ^ quantum p emin x⌋ := Int.floor_nonneg.mpr (div_nonneg hx (le_of_lt hq))
  have h1 := floor_le_roundHalfEven (x / 2 ^ quantum p emin x)
  have : (0 : ℚ) ≤ roundHalfEven (x / 2 ^ quantum p emin x) := by exact_mod_cast h0.trans h1
  exact mul_nonneg this (le_of_lt hq)

theorem roundBinary_mono (p : ℕ) (emin : ℤ) (hp : 1 ≤ p) {x y : ℚ} (hx : 0 ≤ x) (h : x ≤ y) :
    roundBinary p emin x ≤ roundBinary p emin y := by
  rcases eq_or_lt_of_le hx with h0 | hpos
  · rw [← h0, roundBinary_zero]; exact roundBinary_nonneg p emin (hx.trans h)
  have hypos : 0 < y := lt_of_lt_of_le hpos h
  have hlog : Int.log 2 x ≤ Int.log 2 y := Int.log_mono_right hpos h
  have hp1 : (0 : ℤ) ≤ (p : ℤ) - 1 := by omega
  rcases eq_or_lt_of_le (max_le_max hlog (le_refl emin)) with heq | hlt
  · unfold roundBinary quantum
    rw [heq]
    exact roundAt_mono _ h
  · have hey : max (Int.log 2 y) emin = Int.log 2 y := by
      rcases le_total (Int.log 2 y) emin with hle | hle
      · rw [max_eq_right hle] at hlt
        exact absurd (le_max_right _ _) (not_le.mpr hlt)
      · exact max_eq_left hle
    have hxlt : x ≤ (2 : ℚ) ^ (max (Int.log 2 x) emin + 1) := by
      have h1 : x < ((2 : ℕ) : ℚ) ^ (Int.log 2 x + 1) := Int.lt_zpow_succ_log_self (by norm_num) x
      have h2 : ((2 : ℕ) : ℚ) ^ (Int.log 2 x + 1) ≤ ((2 : ℕ) : ℚ) ^ (max (Int.log 2 x) emin + 1) :=
        zpow_le_zpow_right₀ (by norm_num) (by have := le_max_left (Int.log 2 x) emin; omega)
      have := (le_of_lt h1).trans h2
      simpa using this
    have hyge : (2 : ℚ) ^ (Int.log 2 y) ≤ y := by
      have := Int.zpow_log_le_self (b := 2) (r := y) (by norm_num) hypos
      simpa using this
    have hmid : (2 : ℚ) ^ (max (Int.log 2 x) emin + 1) ≤ 2 ^ (Int.log 2 y) :=
      zpow_le_zpow_right₀ (by norm_num) (by rw [hey] at hlt; omega)
    calc roundBinary p emin x
        ≤ roundHalfEven ((2 : ℚ) ^ (max (Int.log 2 x) emin + 1) / 2 ^ quantum p emin x) *
            2 ^ quantum p emin x := roundAt_mono _ hxlt
      _ = 2 ^ (max (Int.log 2 x) emin + 1) := roundAt_zpow _ _ (by unfold quantum; omega)
      _ ≤ 2 ^ (Int.log 2 y) := hmid
      _ = roundHalfEven ((2 : ℚ) ^ (Int.log 2 y) / 2 ^ quantum p emin y) *
            2 ^ quantum p emin y := (roundAt_zpow _ _ (by unfold quantum; rw [hey]; omega)).symm
      _ ≤ roundBinary p emin y := roundAt_mono _ hyge

theorem fround_mono {x y : ℚ} (h : x ≤ y) : fround x ≤ fround y := by
  unfold fround
  by_cases hx : x < 0 <;> by_cases hy : y < 0
  · simp only [hx, hy, if_true]
    exact neg_le_neg (roundBinary_mono 24 (-126) (by norm_num) (by linarith) (by linarith))
  · simp only [hx, hy, if_true, if_false]
    have a := roundBinary_nonneg 24 (-126) (x := -x) (by linarith)
    have b := roundBinary_nonneg 24 (-126) (x := y) (by linarith)
    linarith
  · exfalso; linarith
  · simp only [hx, hy, if_false]
    exact roundBinary_mono 24 (-126) (by norm_num) (by linarith) h

theorem log2_of_bounds (x : ℚ) (e : ℤ) (hx : 0 < x) (h1 : (2 : ℚ) ^ e ≤ x)
    (h2 : x < (2 : ℚ) ^ (e + 1)) : Int.log 2 x = e := by
  have a : e ≤ Int.log 2 x := (Int.zpow_le_iff_le_log (b := 2) (by norm_num) hx).mp (by simpa using h1)
  have b : Int.log 2 x < e + 1 := (Int.lt_zpow_iff_log_lt (b := 2) (by norm_num) hx).mp (by simpa using h2)
  omega

/-- The green channel of `color1`, 240/255, narrows to the binary32 number
15790321 / 2 ^ 24 above it. -/
theorem fround_16_17 : fround (16 / 17) = 15790321 / 16777216 := by
  have hl : Int.log 2 (16 / 17 : ℚ) = -1 := log2_of_bounds _ _ (by norm_num) (by norm_num) (by norm_num)
  have hq : quantum 24 (-126) (16 / 17) = -24 := by
    unfold quantum; rw [hl]; norm_num
  have hf : ⌊(16 / 17 : ℚ) / 2 ^ (-24 : ℤ)⌋ = 15790320 := by
    rw [Int.floor_eq_iff]; norm_num
  unfold fround roundBinary
  rw [if_neg (by norm_num), hq]
  unfold roundHalfEven
  rw [hf]
  norm_num


theorem endpoint_green : color1.g = 16 / 17 ∧ color2.g = 0 := by
  constructor <;> norm_num [color1, color2, Color.ofHex]

theorem store_triple (a : Float32Array) (k : ℕ) (v0 v1 v2 : ℚ) :
    (((a.store (k * 3) v0).store (k * 3 + 1) v1).store (k * 3 + 2) v2).data.length =
      a.data.length ∧
    (((a.store (k * 3) v0).store (k * 3 + 1) v1).store (k * 3 + 2) v2).writes =
      a.writes ++ [k * 3, k * 3 + 1, k * 3 + 2] ∧
    (∀ j, j < k * 3 →
      (((a.store (k * 3) v0).store (k * 3 + 1) v1).store (k * 3 + 2) v2).data[j]? =
        a.data[j]?) ∧
    (k * 3 + 2 < a.data.length →
      (((a.store (k * 3) v0).store (k * 3 + 1) v1).store (k * 3 + 2) v2).data[k * 3]? =
        some (fround v0) ∧
      (((a.store (k * 3) v0).store (k * 3 + 1) v1).store (k * 3 + 2) v2).data[k * 3 + 1]? =
        some (fround v1) ∧
      (((a.store (k * 3) v0).store (k * 3 + 1) v1).store (k * 3 + 2) v2).data[k * 3 + 2]? =
        some (fround v2)) := by
  simp only [Float32Array.store, List.length_set, List.append_assoc, List.cons_append,
    List.nil_append, true_and]
  refine ⟨?_, ?_⟩
  · intro j hj
    rw [List.getElem?_set_ne (by omega), List.getElem?_set_ne (by omega),
      List.getElem?_set_ne (by omega)]
  · intro hlen
    refine ⟨?_, ?_, ?_⟩
    · rw [List.getElem?_set_ne (by omega), List.getElem?_set_ne (by omega),
        List.getElem?_set_self (by omega)]
    · rw [List.getElem?_set_ne (by omega),
        List.getElem?_set_self (by rw [List.length_set]; omega)]
    · rw [List.getElem?_set_self (by rw [List.length_set, List.length_set]; omega)]

theorem fillPrefix_shape (rnd : ℕ → ℚ) (n k : ℕ) :
    (fillPrefix rnd n k).positions.data.length = n * 3 ∧
    (fillPrefix rnd n k).colors.data.length = n * 3 ∧
    (fillPrefix rnd n k).sizes.data.length = n ∧
    (fillPrefix rnd n k).draws = 5 * k ∧
    (fillPrefix rnd n k).positions.writes = List.range (k * 3) ∧
    (fillPrefix rnd n k).colors.writes = List.range (k * 3) ∧
    (fillPrefix rnd n k).sizes.writes = List.range k := by
  induction k with
  | zero => simp [fillPrefix, allocBuffers, Float32Array.alloc]
  | succ k ih =>
    obtain ⟨h1, h2, h3, h4, h5, h6, h7⟩ := ih
    rw [fillPrefix_succ]
    refine ⟨?_, ?_, ?_, ?_, ?_, ?_, ?_⟩
    · simp only [fillStep]; rw [(store_triple _ k _ _ _).1, h1]
    · simp only [fillStep]; rw [(store_triple _ k _ _ _).1, h2]
    · simp [fillStep, Float32Array.store, h3]
    · simp only [fillStep, h4]; ring
    · simp only [fillStep]; rw [(store_triple _ k _ _ _).2.1, h5, range_three_succ]
    · simp only [fillStep]; rw [(store_triple _ k _ _ _).2.1, h6, range_three_succ]
    · simp only [fillStep, Float32Array.store, h7, List.range_succ]

theorem fillPrefix_positions (rnd : ℕ → ℚ) (n k : ℕ) (hk : k ≤ n) :
    ∀ j, j < k →
      (fillPrefix rnd n k).positions.data[j * 3]? =
        some (fround ((rnd (5 * j) - 0.5) * 200)) ∧
      (fillPrefix rnd n k).positions.data[j * 3 + 1]? =
        some (fround ((rnd (5 * j + 1) - 0.5) * 200)) ∧
      (fillPrefix rnd n k).positions.data[j * 3 + 2]? =
        some (fround ((rnd (5 * j + 2) - 0.5) * 200)) := by
  induction k with
  | zero => intro j hj; omega
  | succ k ih =>
    intro j hj
    obtain ⟨hlen, _, _, hdraws, _, _, _⟩ := fillPrefix_shape rnd n k
    rw [fillPrefix_succ]
    simp only [fillStep, hdraws]
    obtain ⟨_, _, hold, hnew⟩ := store_triple (fillPrefix rnd n k).positions k
      ((rnd (5 * k) - 0.5) * 200) ((rnd (5 * k + 1) - 0.5) * 200)
      ((rnd (5 * k + 2) - 0.5) * 200)
    rcases Nat.lt_succ_iff_lt_or_eq.mp hj with hlt | heq
    · obtain ⟨a, b, c⟩ := ih (by omega) j hlt
      rw [hold _ (by omega), hold _ (by omega), hold _ (by omega)]
      exact ⟨a, b, c⟩
    · subst heq
      exact hnew (by omega)

theorem fillPrefix_colors (rnd : ℕ → ℚ) (n k : ℕ) (hk : k ≤ n) :
    ∀ j, j < k →
      (fillPrefix rnd n k).colors.data[j * 3]? =
        some (fround (color1.lerp color2 (rnd (5 * j + 3))).r) ∧
      (fillPrefix rnd n k).colors.data[j * 3 + 1]? =
        some (fround (color1.lerp color2 (rnd (5 * j + 3))).g) ∧
      (fillPrefix rnd n k).colors.data[j * 3 + 2]? =
        some (fround (color1.lerp color2 (rnd (5 * j + 3))).b) := by
  induction k with
  | zero => intro j hj; omega
  | succ k ih =>
    intro j hj
    obtain ⟨_, hlen, _, hdraws, _, _, _⟩ := fillPrefix_shape rnd n k
    rw [fillPrefix_succ]
    simp only [fillStep, hdraws]
    obtain ⟨_, _, hold, hnew⟩ := store_triple (fillPrefix rnd n k).colors k
      (color1.lerp color2 (rnd (5 * k + 3))).r (color1.lerp color2 (rnd (5 * k + 3))).g
      (color1.lerp color2 (rnd (5 * k + 3))).b
    rcases Nat.lt_succ_iff_lt_or_eq.mp hj with hlt | heq
    · obtain ⟨a, b, c⟩ := ih (by omega) j hlt
      rw [hold _ (by omega), hold _ (by omega), hold _ (by omega)]
      exact ⟨a, b, c⟩
    · subst heq
      exact hnew (by omega)

theorem fillPrefix_sizes (rnd : ℕ → ℚ) (n k : ℕ) (hk : k ≤ n) :
    ∀ j, j < k →
      (fillPrefix rnd n k).sizes.data[j]? = some (fround (rnd (5 * j + 4) * 2 + 1)) := by
  induction k with
  | zero => intro j hj; omega
  | succ k ih =>
    intro j hj
    obtain ⟨_, _, hlen, hdraws, _, _, _⟩ := fillPrefix_shape rnd n k
    rw [fillPrefix_succ]
    simp only [fillStep, hdraws, Float32Array.store]
    rcases Nat.lt_succ_iff_lt_or_eq.mp hj with hlt | heq
    · rw [List.getElem?_set_ne (by omega)]
      exact ih (by omega) j hlt
    · subst heq
      rw [List.getElem?_set_self (by omega)]

theorem lerp_between (a b t : ℚ) (h0 : 0 ≤ t) (h1 : t < 1) :
    min a b ≤ a + (b - a) * t ∧ a + (b - a) * t ≤ max a b := by
  rcases le_total a b with h | h
  · rw [min_eq_left h, max_eq_right h]
    constructor <;> nlinarith
  · rw [min_eq_right h, max_eq_left h]
    constructor <;> nlinarith

theorem count_range (n j : ℕ) : (List.range n).count j = if j < n then 1 else 0 := by
  split
  · exact List.count_eq_one_of_mem (List.nodup_range n) (List.mem_range.mpr ‹_›)
  · exact List.count_eq_zero_of_not_mem (fun h => ‹¬ j < n› (List.mem_range.mp h))

theorem initThreeJS_effects (inp : InitInput) (s : Page) :
    (initThreeJS inp s).trace =
      s.trace ++ [Call.initThreeJS, Call.createParticles, Call.addResizeListener,
        Call.addMousemoveListener, Call.animate] ∧
    (initThreeJS inp s).canvases = s.canvases + 1 ∧
    (initThreeJS inp s).domReadyListener = s.domReadyListener ∧
    (initThreeJS inp s).scriptInjected = s.scriptInjected := by
  simp [initThreeJS, animate, createParticles]

theorem fillBuffers_eq (rnd : ℕ → ℚ) (n : ℕ) : fillBuffers rnd n = fillPrefix rnd n n := rfl

theorem createParticles_particles (rnd : ℕ → ℚ) (s : Page) :
    (createParticles rnd s).particles = some
      { positions := (fillPrefix rnd particleCount particleCount).positions.data
        colors := (fillPrefix rnd particleCount particleCount).colors.data
        sizes := (fillPrefix rnd particleCount particleCount).sizes.data
        rotationX := 0
        rotationY := 0 } := by
  simp only [createParticles, fillBuffers_eq]

end Lemmas

/-- C7: after a resize to `w` by `h` with `h > 0`, renderer and composer are
sized exactly `(w, h)`, the camera aspect is the quotient `w / h`, the stored
half-extents are `w / 2` and `h / 2`, and pointer offsets and `time` are
unchanged. -/
theorem onWindowResize_matches_viewport (s : Page) (w h : ℚ) (hh : 0 < h) :
    (resizeTo w h s).rendererSize = (w, h) ∧
    (resizeTo w h s).composerSize = (w, h) ∧
    (resizeTo w h s).cameraAspect = w / h ∧
    (resizeTo w h s).cameraAspect * h = w ∧
    (resizeTo w h s).windowHalfX = w / 2 ∧
    (resizeTo w h s).windowHalfY = h / 2 ∧
    (resizeTo w h s).mouseX = s.mouseX ∧
    (resizeTo w h s).mouseY = s.mouseY ∧
    (resizeTo w h s).time = s.time := by
  refine ⟨rfl, rfl, rfl, ?_, rfl, rfl, rfl, rfl, rfl⟩
  show w / h * h = w
  exact div_mul_cancel₀ w (ne_of_gt hh)

/-- Witness of C7: the scene resized to 1024 by 768. -/
theorem onWindowResize_matches_viewport_witness :
    (resizeTo 1024 768 sampleScene).rendererSize = (1024, 768) ∧
    (resizeTo 1024 768 sampleScene).composerSize = (1024, 768) ∧
    (resizeTo 1024 768 sampleScene).cameraAspect = 1024 / 768 ∧
    (resizeTo 1024 768 sampleScene).cameraAspect * 768 = 1024 ∧
    (resizeTo 1024 768 sampleScene).windowHalfX = 1024 / 2 ∧
    (resizeTo 1024 768 sampleScene).windowHalfY = 768 / 2 ∧
    (resizeTo 1024 768 sampleScene).mouseX = sampleScene.mouseX ∧
    (resizeTo 1024 768 sampleScene).mouseY = sampleScene.mouseY ∧
    (resizeTo 1024 768 sampleScene).time = sampleScene.time :=
  onWindowResize_matches_viewport sampleScene 1024 768 (by norm_num)

/-- C8: after the pointer-move events `es` followed by `e`, the state is the
starting state with `mouseX`, `mouseY` replaced by the offsets of `e` alone
(so no other field changes and neither the earlier events nor the previous
offsets matter); a pointer at the stored viewport centre gives offset (0, 0). -/
theorem onDocumentMouseMove_last_wins (s : Page) (es : List MouseEvent) (e : MouseEvent) :
    mouseMoves s (es ++ [e]) =
      { s with
        mouseX := (e.clientX - s.windowHalfX) / 100
        mouseY := (e.clientY - s.windowHalfY) / 100 } ∧
    (onDocumentMouseMove { clientX := s.windowHalfX, clientY := s.windowHalfY } s).mouseX = 0 ∧
    (onDocumentMouseMove { clientX := s.windowHalfX, clientY := s.windowHalfY } s).mouseY = 0 := by
  refine ⟨?_, by simp [onDocumentMouseMove], by simp [onDocumentMouseMove]⟩
  induction es generalizing s with
  | nil => rfl
  | cons a as ih =>
    have h := ih (onDocumentMouseMove a s)
    simp only [mouseMoves, List.cons_append, List.foldl_cons] at h ⊢
    rw [h]; rfl

/-- C9: with non-negative clock deltas every tick leaves `time` at least where
it was, after the ticks `deltas` the accumulator is its starting value plus the
sum of the deltas (the sum itself on a freshly loaded module, where it starts
at 0), and the resize, pointer-move, scroll and intersection handlers leave it
unchanged. -/
theorem time_accumulates (s : Page) (deltas : List ℚ) (hd : ∀ d ∈ deltas, 0 ≤ d) :
    (∀ pre d post, deltas = pre ++ d :: post →
      (frames s pre).time ≤ (frames s (pre ++ [d])).time) ∧
    (frames s deltas).time = s.time + deltas.sum ∧
    (∀ w classes styles, (frames (Page.initial w classes styles) deltas).time = deltas.sum) ∧
    (∀ w h, (resizeTo w h s).time = s.time) ∧
    (∀ e, (onDocumentMouseMove e s).time = s.time) ∧
    (∀ y, (scrollTo s y).time = s.time) ∧
    (∀ entries, (onIntersect s entries).time = s.time) := by
  refine ⟨?_, frames_time deltas s, ?_, fun _ _ => rfl, fun _ => rfl, ?_, ?_⟩
  · intro pre d post h
    have hmem : d ∈ deltas := by rw [h]; simp
    rw [frames_time, frames_time, List.sum_append, List.sum_singleton]
    linarith [hd d hmem]
  · intro w classes styles
    rw [frames_time]; simp [Page.initial]
  · intro y
    unfold scrollTo onScroll
    split <;> rfl
  · intro entries
    exact onIntersect_time entries s

/-- Witness of C9: three ticks of 1/60 s, 0 s and 1/30 s on the sample scene. -/
theorem time_accumulates_witness :
    (frames sampleScene [1 / 60, 0, 1 / 30]).time = sampleScene.time + [1 / 60, 0, 1 / 30].sum :=
  (time_accumulates sampleScene [1 / 60, 0, 1 / 30] (by
    intro d hd
    simp only [List.mem_cons, List.mem_singleton, List.not_mem_nil, or_false] at hd
    rcases hd with h | h | h <;> rw [h] <;> norm_num)).2.1

/-- C10: one tick with `particles` set leaves `rotation.x = 0.99 * (0.1 * time)
+ 0.01 * mouseY` and `rotation.y = 0.99 * (0.15 * time) + 0.01 * mouseX` for the
advanced `time`, and the state after the tick is the same whatever the two
angles were before it. -/
theorem animate_rotation_memoryless (s : Page) (p : Points) (delta : ℚ)
    (hp : s.particles = some p) :
    (animate delta s).rotationX = 0.99 * (0.1 * (animate delta s).time) + 0.01 * s.mouseY ∧
    (animate delta s).rotationY = 0.99 * (0.15 * (animate delta s).time) + 0.01 * s.mouseX ∧
    (animate delta s).time = s.time + delta ∧
    ∀ x y : ℚ,
      animate delta { s with particles := some { p with rotationX := x, rotationY := y } } =
        animate delta s := by
  refine ⟨?_, ?_, rfl, ?_⟩
  · simp only [animate, Page.rotationX, hp, Option.map_some']; ring
  · simp only [animate, Page.rotationY, hp, Option.map_some']; ring
  · intro x y
    simp only [animate, hp, Option.map_some']

/-- Witness of C10: one tick of 1/60 s on the sample scene with the angles
preset to (7, -3). -/
theorem animate_rotation_memoryless_witness :
    animate (1 / 60)
        { sampleScene with
          particles := some
            { positions := [], colors := [], sizes := [], rotationX := 7, rotationY := -3 } } =
      animate (1 / 60)
        { sampleScene with
          particles := some
            { positions := [], colors := [], sizes := [], rotationX := 0, rotationY := 0 } } :=
  (animate_rotation_memoryless
    { sampleScene with
      particles := some
        { positions := [], colors := [], sizes := [], rotationX := 0, rotationY := 0 } }
    { positions := [], colors := [], sizes := [], rotationX := 0, rotationY := 0 }
    (1 / 60) rfl).2.2.2 7 (-3)

/-- C5: after every scroll event the header has the class `scrolled` exactly
when that event's offset is above 50; hence a further event changes the
membership exactly when its offset lies on the other side of the threshold, and
a run of events staying on the same side leaves the class list as it was. -/
theorem header_scrolled_iff_above_threshold (s : Page) (ys : List ℚ) (y : ℚ) :
    ("scrolled" ∈ (scrolls s (ys ++ [y])).headerClasses ↔ 50 < y) ∧
    (∀ y2 : ℚ,
      ¬ ("scrolled" ∈ (scrolls s (ys ++ [y, y2])).headerClasses ↔
          "scrolled" ∈ (scrolls s (ys ++ [y])).headerClasses) ↔
        ¬ (50 < y2 ↔ 50 < y)) ∧
    (∀ zs : List ℚ, (∀ z ∈ zs, (50 < z ↔ 50 < y)) →
      (scrolls s (ys ++ [y] ++ zs)).headerClasses = (scrolls s (ys ++ [y])).headerClasses) := by
  have ha : "scrolled" ∈ (scrolls s (ys ++ [y])).headerClasses ↔ 50 < y := by
    rw [scrolls_snoc]; exact scrollTo_mem_iff _ y
  refine ⟨ha, ?_, ?_⟩
  · intro y2
    have h2 : "scrolled" ∈ (scrolls s (ys ++ [y, y2])).headerClasses ↔ 50 < y2 := by
      have : ys ++ [y, y2] = (ys ++ [y]) ++ [y2] := by simp
      rw [this, scrolls_snoc]; exact scrollTo_mem_iff _ y2
    rw [h2, ha]
  · intro zs hz
    have : scrolls s (ys ++ [y] ++ zs) = scrolls (scrolls s (ys ++ [y])) zs := by
      simp [scrolls, List.foldl_append]
    rw [this]
    exact scrolls_same_side zs y _ ha hz

/-- Witness of C5: offsets 0, 120, then 80 and 51 (same side as 120). -/
theorem header_scrolled_iff_above_threshold_witness :
    (scrolls samplePage ([0] ++ [120] ++ [80, 51])).headerClasses =
      (scrolls samplePage ([0] ++ [120])).headerClasses :=
  (header_scrolled_iff_above_threshold samplePage [0] 120).2.2 [80, 51] (by
    intro z hz
    simp only [List.mem_cons, List.mem_singleton, List.not_mem_nil, or_false] at hz
    rcases hz with h | h <;> rw [h] <;> norm_num)

/-- C6: once the callback has processed an entry `e` with `isIntersecting`
true, the target has `transform = translateY(0)` and `opacity = 1`, both right
after that entry and after the rest of the callback and any later callbacks
(whatever their entries); an entry with `isIntersecting` false changes
nothing. -/
theorem reveal_is_one_way (s : Page) (pre post : List Entry) (e : Entry)
    (he : e.isIntersecting = true) :
    revealed ((onIntersect s (pre ++ [e])).styles e.target) ∧
    (∀ batches : List (List Entry),
      revealed ((intersections (onIntersect s (pre ++ e :: post)) batches).styles e.target)) ∧
    (∀ (t : Page) (f : Entry), f.isIntersecting = false → revealEntry t f = t) := by
  have h1 : revealed ((onIntersect s (pre ++ [e])).styles e.target) := by
    simp only [onIntersect, List.foldl_append, List.foldl_cons, List.foldl_nil]
    exact revealEntry_target _ e he
  refine ⟨h1, ?_, ?_⟩
  · intro batches
    apply intersections_keep
    have : onIntersect s (pre ++ e :: post) = onIntersect (onIntersect s (pre ++ [e])) post := by
      simp [onIntersect, List.foldl_append]
    rw [this]
    exact onIntersect_keeps post _ _ h1
  · intro t f hf
    simp [revealEntry, hf]

/-- Witness of C6: element 3 enters, then leaves and enters again next to
element 4. -/
theorem reveal_is_one_way_witness :
    revealed ((intersections
      (onIntersect samplePage
        ([{ target := 4, isIntersecting := false }] ++
          { target := 3, isIntersecting := true } :: []))
      [[{ target := 3, isIntersecting := false }, { target := 4, isIntersecting := true }],
       [{ target := 3, isIntersecting := true }]]).styles 3) :=
  (reveal_is_one_way samplePage [{ target := 4, isIntersecting := false }] []
    { target := 3, isIntersecting := true } rfl).2.1 _

/-- C1, as stated, fails: on the sample scene (pointer offset `mouseY = 0.12`,
`time = 0`) with ticks of 1 s the angle `rotation.x` is below the target after
the first tick and above it after the second, and its distance to the target
has grown. -/
theorem rotation_overshoots_pointer :
    (0 : ℚ) ≤ 1 ∧
    (ticks 1 1 sampleScene).rotationX < sampleScene.mouseY ∧
    sampleScene.mouseY < (ticks 1 2 sampleScene).rotationX ∧
    |(ticks 1 1 sampleScene).rotationX - sampleScene.mouseY| <
      |(ticks 1 2 sampleScene).rotationX - sampleScene.mouseY| := by
  obtain ⟨hp, ht, _, hy⟩ := sampleScene_fields
  have h1 := ticks_rotationX 1 sampleScene hp 0
  have h2 := ticks_rotationX 1 sampleScene hp 1
  rw [ht, hy] at h1 h2
  norm_num at h1 h2
  rw [h1, h2, hy]
  refine ⟨by norm_num, by norm_num, by norm_num, ?_⟩
  rw [abs_of_nonpos (by norm_num), abs_of_nonneg (by norm_num)]
  norm_num

/-- C1, amended: with `particles` set, a fixed pointer offset and ticks of a
constant `dt ≥ 0`, every tick leaves `rotation.x = 0.99 * (0.1 * time) + 0.01 *
mouseY` and `rotation.y = 0.99 * (0.15 * time) + 0.01 * mouseX`.  A tick after
which the drift angle `0.1 * time` (resp. `0.15 * time`) is still at most the
pointer offset leaves the angle no farther from the offset than the previous
tick did and not beyond it; a tick before which the drift angle had already
reached the offset leaves the angle no nearer than the previous tick did. -/
theorem rotation_approaches_pointer_until_drift_passes (s : Page) (dt : ℚ) (n : ℕ)
    (hp : s.particles.isSome = true) (hdt : 0 ≤ dt) :
    (ticks dt (n + 1) s).rotationX =
      0.99 * (0.1 * (ticks dt (n + 1) s).time) + 0.01 * s.mouseY ∧
    (ticks dt (n + 1) s).rotationY =
      0.99 * (0.15 * (ticks dt (n + 1) s).time) + 0.01 * s.mouseX ∧
    (0.1 * (ticks dt (n + 2) s).time ≤ s.mouseY →
      |(ticks dt (n + 2) s).rotationX - s.mouseY| ≤
        |(ticks dt (n + 1) s).rotationX - s.mouseY| ∧
      (ticks dt (n + 2) s).rotationX ≤ s.mouseY) ∧
    (0.15 * (ticks dt (n + 2) s).time ≤ s.mouseX →
      |(ticks dt (n + 2) s).rotationY - s.mouseX| ≤
        |(ticks dt (n + 1) s).rotationY - s.mouseX| ∧
      (ticks dt (n + 2) s).rotationY ≤ s.mouseX) ∧
    (s.mouseY ≤ 0.1 * (ticks dt (n + 1) s).time →
      |(ticks dt (n + 1) s).rotationX - s.mouseY| ≤
        |(ticks dt (n + 2) s).rotationX - s.mouseY|) ∧
    (s.mouseX ≤ 0.15 * (ticks dt (n + 1) s).time →
      |(ticks dt (n + 1) s).rotationY - s.mouseX| ≤
        |(ticks dt (n + 2) s).rotationY - s.mouseX|) := by
  have t1 := (ticks_fields dt s (n + 1)).1
  have t2 := (ticks_fields dt s (n + 1 + 1)).1
  have x1 := ticks_rotationX dt s hp n
  have x2 := ticks_rotationX dt s hp (n + 1)
  have y1 := ticks_rotationY dt s hp n
  have y2 := ticks_rotationY dt s hp (n + 1)
  push_cast at t1 t2 x1 x2 y1 y2
  have ht : s.time + ((n : ℚ) + 1) * dt ≤ s.time + ((n : ℚ) + 1 + 1) * dt := by nlinarith
  have bx := blend_distance 0.1 s.mouseY _ _ (by norm_num) ht
  have byy := blend_distance 0.15 s.mouseX _ _ (by norm_num) ht
  rw [show n + 2 = n + 1 + 1 from rfl, t1, t2, x1, x2, y1, y2]
  exact ⟨rfl, rfl, bx.1, byy.1, bx.2, byy.2⟩

/-- Witness of the amended C1: the first two ticks of 1/60 s on the sample
scene. -/
theorem rotation_approaches_pointer_until_drift_passes_witness :
    |(ticks (1 / 60) 2 sampleScene).rotationX - sampleScene.mouseY| ≤
      |(ticks (1 / 60) 1 sampleScene).rotationX - sampleScene.mouseY| ∧
    (ticks (1 / 60) 2 sampleScene).rotationX ≤ sampleScene.mouseY :=
  (rotation_approaches_pointer_until_drift_passes sampleScene (1 / 60) 0
    sampleScene_fields.1 (by norm_num)).2.2.1 (by
      rw [(ticks_fields (1 / 60) sampleScene 2).1, sampleScene_fields.2.1,
        sampleScene_fields.2.2.2]
      norm_num)

/-- C3, as stated, fails: with every draw equal to 0 (a value of
`Math.random()`), the green component stored for particle 0 is the binary32
number 15790321 / 2 ^ 24, which is above both endpoint green channels (240/255
and 0). -/
theorem stored_green_exceeds_endpoints :
    ((0 : ℚ) ≤ 0 ∧ (0 : ℚ) < 1) ∧
    ∃ p : Points, (createParticles (fun _ => 0) samplePage).particles = some p ∧
      p.colors[3 * 0 + 1]? = some (15790321 / 16777216) ∧
      max color1.g color2.g < 15790321 / 16777216 := by
  have hc : (0 : ℕ) < particleCount := by simp only [particleCount]; norm_num
  obtain ⟨_, g, _⟩ := fillPrefix_colors (fun _ => 0) particleCount particleCount (le_refl _) 0 hc
  obtain ⟨g1, g2⟩ := endpoint_green
  simp only [Color.lerp, g1, g2, mul_zero, add_zero, fround_16_17] at g
  rw [Nat.mul_comm 0 3] at g
  refine ⟨⟨le_refl _, by norm_num⟩, _, createParticles_particles _ samplePage, ?_, ?_⟩
  · dsimp only
    exact g
  · rw [g1, g2]; norm_num

/-- C3, amended: when every random draw lies in [0, 1), the three colour
components stored for particle `i < 2000` are the binary32 roundings of
`color1.c + (color2.c - color1.c) * t`, where `t` is the fourth draw of
iteration `i`; each unrounded blend lies between the minimum and the maximum of
that channel of the endpoint colours 0x00f0ff and 0xff00f0, and each stored
value between the binary32 roundings of that minimum and maximum. -/
theorem createParticles_colors_rounded_between_endpoints (rnd : ℕ → ℚ) (s : Page) (i : ℕ)
    (hr : ∀ k, 0 ≤ rnd k ∧ rnd k < 1) (hi : i < 2000) :
    ∃ p : Points, (createParticles rnd s).particles = some p ∧
      p.colors[3 * i]? =
        some (fround (color1.r + (color2.r - color1.r) * rnd (5 * i + 3))) ∧
      p.colors[3 * i + 1]? =
        some (fround (color1.g + (color2.g - color1.g) * rnd (5 * i + 3))) ∧
      p.colors[3 * i + 2]? =
        some (fround (color1.b + (color2.b - color1.b) * rnd (5 * i + 3))) ∧
      min color1.r color2.r ≤ color1.r + (color2.r - color1.r) * rnd (5 * i + 3) ∧
      color1.r + (color2.r - color1.r) * rnd (5 * i + 3) ≤ max color1.r color2.r ∧
      min color1.g color2.g ≤ color1.g + (color2.g - color1.g) * rnd (5 * i + 3) ∧
      color1.g + (color2.g - color1.g) * rnd (5 * i + 3) ≤ max color1.g color2.g ∧
      min color1.b color2.b ≤ color1.b + (color2.b - color1.b) * rnd (5 * i + 3) ∧
      color1.b + (color2.b - color1.b) * rnd (5 * i + 3) ≤ max color1.b color2.b ∧
      fround (min color1.r color2.r) ≤
        fround (color1.r + (color2.r - color1.r) * rnd (5 * i + 3)) ∧
      fround (color1.r + (color2.r - color1.r) * rnd (5 * i + 3)) ≤
        fround (max color1.r color2.r) ∧
      fround (min color1.g color2.g) ≤
        fround (color1.g + (color2.g - color1.g) * rnd (5 * i + 3)) ∧
      fround (color1.g + (color2.g - color1.g) * rnd (5 * i + 3)) ≤
        fround (max color1.g color2.g) ∧
      fround (min color1.b color2.b) ≤
        fround (color1.b + (color2.b - color1.b) * rnd (5 * i + 3)) ∧
      fround (color1.b + (color2.b - color1.b) * rnd (5 * i + 3)) ≤
        fround (max color1.b color2.b) ∧
      color1 = Color.ofHex 0x00f0ff ∧ color2 = Color.ofHex 0xff00f0 := by
  obtain ⟨h0, h1⟩ := hr (5 * i + 3)
  have hi2 : i < particleCount := by simpa only [particleCount] using hi
  obtain ⟨a, b, c⟩ := fillPrefix_colors rnd particleCount particleCount (le_refl _) i hi2
  rw [Nat.mul_comm i 3] at a b c
  simp only [Color.lerp] at a b c
  obtain ⟨lr, ur⟩ := lerp_between color1.r color2.r _ h0 h1
  obtain ⟨lg, ug⟩ := lerp_between color1.g color2.g _ h0 h1
  obtain ⟨lb, ub⟩ := lerp_between color1.b color2.b _ h0 h1
  refine ⟨_, createParticles_particles rnd s, ?_⟩
  dsimp only
  exact ⟨a, b, c, lr, ur, lg, ug, lb, ub,
    fround_mono lr, fround_mono ur, fround_mono lg, fround_mono ug,
    fround_mono lb, fround_mono ub, by simp only [color1], by simp only [color2]⟩

/-- Witness of the amended C3: every draw 1/2, the red component of particle
1999. -/
theorem createParticles_colors_rounded_between_endpoints_witness :
    ∃ p : Points, (createParticles (fun _ => 1 / 2) samplePage).particles = some p ∧
      p.colors[3 * 1999]? = some (fround (color1.r + (color2.r - color1.r) * (1 / 2))) ∧
      fround (min color1.r color2.r) ≤ fround (color1.r + (color2.r - color1.r) * (1 / 2)) ∧
      fround (color1.r + (color2.r - color1.r) * (1 / 2)) ≤ fround (max color1.r color2.r) := by
  obtain ⟨p, hp, hr, _, _, _, _, _, _, _, _, lo, hi, _⟩ :=
    createParticles_colors_rounded_between_endpoints (fun _ => 1 / 2) samplePage 1999
      (fun _ => by norm_num) (by norm_num)
  exact ⟨p, hp, hr, lo, hi⟩

/-- C4: with 2000 particles the position and colour arrays have exactly 3 * 2000
entries and the size array 2000, in the loop and in the points object built
from it; the stores of the loop go to the indices 0, 1, ..., 3 * 2000 - 1 of
positions and of colours and 0, ..., 1999 of sizes, each index exactly once and
none outside; and after the loop the entries 3 * i, 3 * i + 1, 3 * i + 2 of
positions and of colours and the entry i of sizes hold what iteration i stored
there. -/
theorem createParticles_buffers_written_once (rnd : ℕ → ℚ) (s : Page) :
    particleCount = 2000 ∧
    (∃ p : Points, (createParticles rnd s).particles = some p ∧
      p.positions = (fillBuffers rnd particleCount).positions.data ∧
      p.colors = (fillBuffers rnd particleCount).colors.data ∧
      p.sizes = (fillBuffers rnd particleCount).sizes.data ∧
      p.positions.length = 3 * 2000 ∧ p.colors.length = 3 * 2000 ∧ p.sizes.length = 2000) ∧
    (fillBuffers rnd particleCount).positions.writes = List.range (3 * 2000) ∧
    (fillBuffers rnd particleCount).colors.writes = List.range (3 * 2000) ∧
    (fillBuffers rnd particleCount).sizes.writes = List.range 2000 ∧
    (∀ j, (fillBuffers rnd particleCount).positions.writes.count j =
      if j < 3 * 2000 then 1 else 0) ∧
    (∀ j, (fillBuffers rnd particleCount).colors.writes.count j =
      if j < 3 * 2000 then 1 else 0) ∧
    (∀ j, (fillBuffers rnd particleCount).sizes.writes.count j =
      if j < 2000 then 1 else 0) ∧
    (∀ i, i < 2000 →
      (fillBuffers rnd particleCount).positions.data[3 * i]? =
        some (fround ((rnd (5 * i) - 0.5) * 200)) ∧
      (fillBuffers rnd particleCount).positions.data[3 * i + 1]? =
        some (fround ((rnd (5 * i + 1) - 0.5) * 200)) ∧
      (fillBuffers rnd particleCount).positions.data[3 * i + 2]? =
        some (fround ((rnd (5 * i + 2) - 0.5) * 200)) ∧
      (fillBuffers rnd particleCount).colors.data[3 * i]? =
        some (fround (color1.r + (color2.r - color1.r) * rnd (5 * i + 3))) ∧
      (fillBuffers rnd particleCount).colors.data[3 * i + 1]? =
        some (fround (color1.g + (color2.g - color1.g) * rnd (5 * i + 3))) ∧
      (fillBuffers rnd particleCount).colors.data[3 * i + 2]? =
        some (fround (color1.b + (color2.b - color1.b) * rnd (5 * i + 3))) ∧
      (fillBuffers rnd particleCount).sizes.data[i]? =
        some (fround (rnd (5 * i + 4) * 2 + 1))) := by
  obtain ⟨h1, h2, h3, _, h5, h6, h7⟩ := fillPrefix_shape rnd particleCount particleCount
  have hn : particleCount * 3 = 3 * particleCount := Nat.mul_comm _ _
  rw [hn] at h1 h2 h5 h6
  rw [fillBuffers_eq, h5, h6, h7]
  refine ⟨by simp only [particleCount],
    ⟨_, createParticles_particles rnd s, ?_, ?_, ?_, ?_, ?_, ?_⟩,
    ?_, ?_, ?_, ?_, ?_, ?_, ?_⟩
  · dsimp only
  · dsimp only
  · dsimp only
  · simpa only [particleCount] using h1
  · simpa only [particleCount] using h2
  · simpa only [particleCount] using h3
  · simp only [particleCount]
  · simp only [particleCount]
  · simp only [particleCount]
  · intro j; rw [count_range]; simp only [particleCount]
  · intro j; rw [count_range]; simp only [particleCount]
  · intro j; rw [count_range]; simp only [particleCount]
  · intro i hi
    have hi2 : i < particleCount := by simpa only [particleCount] using hi
    obtain ⟨p0, p1, p2⟩ :=
      fillPrefix_positions rnd particleCount particleCount (le_refl _) i hi2
    obtain ⟨c0, c1, c2⟩ := fillPrefix_colors rnd particleCount particleCount (le_refl _) i hi2
    have sz := fillPrefix_sizes rnd particleCount particleCount (le_refl _) i hi2
    rw [Nat.mul_comm i 3] at p0 p1 p2 c0 c1 c2
    simp only [Color.lerp] at c0 c1 c2
    exact ⟨p0, p1, p2, c0, c1, c2, sz⟩

/-- Witness of C4: all draws 1/2; what the loop leaves for particle 1999. -/
theorem createParticles_buffers_written_once_witness :
    (fillBuffers (fun _ => 1 / 2) particleCount).positions.data[3 * 1999 + 2]? =
      some (fround ((1 / 2 - 0.5) * 200)) ∧
    (fillBuffers (fun _ => 1 / 2) particleCount).sizes.data[1999]? =
      some (fround (1 / 2 * 2 + 1)) := by
  obtain ⟨_, _, p2, _, _, _, sz⟩ :=
    (createParticles_buffers_written_once (fun _ => 1 / 2) samplePage).2.2.2.2.2.2.2.2
      1999 (by norm_num)
  exact ⟨p2, sz⟩

/-- C2, evaluated on the code: a page load calls `initThreeJS` twice, once from
the top-level branch (or the injected script's load event) and once from the
`DOMContentLoaded` listener, whether the library was present or not and in
either order of the two events; so `createParticles`, both listener
registrations and the start of `animate` happen twice and two canvases are
appended. -/
theorem pageLoad_runs_initThreeJS_twice (threeDefined scriptFirst : Bool)
    (inp1 inp2 : InitInput) (w : Window) (classes : List String) (styles : ℕ → Style) :
    (pageLoad threeDefined scriptFirst inp1 inp2 (Page.initial w classes styles)).calls
      Call.initThreeJS = 2 ∧
    (pageLoad threeDefined scriptFirst inp1 inp2 (Page.initial w classes styles)).calls
      Call.createParticles = 2 ∧
    (pageLoad threeDefined scriptFirst inp1 inp2 (Page.initial w classes styles)).calls
      Call.addResizeListener = 2 ∧
    (pageLoad threeDefined scriptFirst inp1 inp2 (Page.initial w classes styles)).calls
      Call.addMousemoveListener = 2 ∧
    (pageLoad threeDefined scriptFirst inp1 inp2 (Page.initial w classes styles)).calls
      Call.animate = 2 ∧
    (pageLoad threeDefined scriptFirst inp1 inp2 (Page.initial w classes styles)).canvases = 2 := by
  cases threeDefined <;> cases scriptFirst <;>
    simp [pageLoad, evalModule, dispatchLoad, onDOMContentLoaded, Page.calls,
      initThreeJS_effects, Page.initial]

end Portfolio
